import Mathlib

/-!
Shallow embedding of the orbiting-entity simulation of `src/js/scene.js`
(orb state machine, chaser steering, collision resolver, trail and
retirement manager, population controller, orbit camera controller),
together with theorems checking the specification's claims about it.

Numbers are modelled as exact rationals.  The JavaScript `Math` functions
`sin`, `cos`, `sqrt` and `Math.hypot` (three arguments), as well as the
stream of `Math.random()` results, are not algebraic operations on ℚ, so
they are supplied as an explicit oracle structure `JsMath`; every theorem
quantifies over the oracle (adding hypotheses pinning particular oracle
values where a claim needs them).  Rendering-only data (shader programs,
GPU buffers, colors derived per frame, entity display names) is omitted.
-/

/-- Three-dimensional vector with rational components, as the JS arrays
`[x, y, z]` used throughout `scene.js`. -/
structure Vec3 where
  x : ℚ
  y : ℚ
  z : ℚ
deriving DecidableEq, Repr

/-- Oracle for the JavaScript `Math` functions that are not rational
arithmetic, plus the `Math.random()` stream (indexed by the number of
calls made so far). -/
structure JsMath where
  sin : ℚ → ℚ
  cos : ℚ → ℚ
  sqrt : ℚ → ℚ
  hypot3 : ℚ → ℚ → ℚ → ℚ
  random : ℕ → ℚ

/-- Exact rational value of the IEEE-754 double `Math.PI`
(7074237752028440 × 2⁻⁵¹, reduced). -/
def mathPI : ℚ := 884279719003555 / 281474976710656

/-- Squared Euclidean length, used to state distance claims without a
square root. -/
def quadrance (v : Vec3) : ℚ := v.x ^ 2 + v.y ^ 2 + v.z ^ 2

/-- Dot product, used to state orthogonality claims. -/
def dotV (a b : Vec3) : ℚ := a.x * b.x + a.y * b.y + a.z * b.z

/-- Componentwise difference, used to state distance claims. -/
def subV (a b : Vec3) : Vec3 := ⟨a.x - b.x, a.y - b.y, a.z - b.z⟩

/-- The `cross` helper of scene.js. -/
def crossV (a b : Vec3) : Vec3 :=
  ⟨a.y * b.z - a.z * b.y, a.z * b.x - a.x * b.z, a.x * b.y - a.y * b.x⟩

-- Orbit bound constants of scene.js.

def ORBIT_MIN_RADIUS : ℚ := 1.15
def ORBIT_MAX_RADIUS : ℚ := 2.05
def ORBIT_MIN_HEIGHT : ℚ := -0.35
def ORBIT_MAX_HEIGHT : ℚ := 0.75
def TELEPORT_BREAK_DIST : ℚ := 0.55

/-- The `clampOrbit` helper: `Math.min(Math.max(v, min), max)`. -/
def clampOrbit (v mn mx : ℚ) : ℚ := min (max v mn) mx

/-- The `randomRange` helper: `Math.random() * (max - min) + min`,
consuming one value of the random stream. -/
def randomRange (M : JsMath) (k : ℕ) (mn mx : ℚ) : ℚ × ℕ :=
  (M.random k * (mx - mn) + mn, k + 1)

/-- The `randomUnitVec3` helper (Marsaglia method), consuming two random
values. -/
def randomUnitVec3 (M : JsMath) (k : ℕ) : Vec3 × ℕ :=
  let u := (randomRange M k (-1) 1).1
  let theta := (randomRange M (k + 1) 0 (mathPI * 2)).1
  let s := M.sqrt (1 - u * u)
  (⟨s * M.cos theta, u, s * M.sin theta⟩, k + 2)

/-- The `lerpVec3` helper: componentwise `a + (b - a) * t`. -/
def lerpVec3 (a b : Vec3) (t : ℚ) : Vec3 :=
  ⟨a.x + (b.x - a.x) * t, a.y + (b.y - a.y) * t, a.z + (b.z - a.z) * t⟩

/-- The `normalizeVec3` helper: divides by `Math.hypot(x, y, z) || 1`
(a zero length falls back to 1). -/
def normalizeVec3 (M : JsMath) (v : Vec3) : Vec3 :=
  let len := M.hypot3 v.x v.y v.z
  let len := if len = 0 then 1 else len
  ⟨v.x / len, v.y / len, v.z / len⟩

/-- Per-entity state, the mutable fields of the objects built by
`createOrbState` (display `name` and the per-frame derived `color` are
rendering data and omitted). -/
structure Orb where
  id : ℕ
  angle : ℚ
  angularSpeed : ℚ
  radius : ℚ
  height : ℚ
  size : ℚ
  trailMax : ℕ
  trailPositions : List Vec3
  trailDirty : Bool
  direction : ℚ
  targetAngularSpeed : ℚ
  targetRadius : ℚ
  targetHeight : ℚ
  segmentTime : ℚ
  segmentDuration : ℚ
  pauseTimer : ℚ
  pauseDuration : ℚ
  isPaused : Bool
  wobblePhaseA : ℚ
  wobblePhaseB : ℚ
  renderRadius : ℚ
  renderHeight : ℚ
  planeNormal : Vec3
  targetPlaneNormal : Vec3
  teleportPlanned : Bool
  teleportDone : Bool
  skipTrailInterpolation : Bool
  isChaser : Bool
  targetId : Option ℕ

/-- Snapshot kept when a live entity is removed, as pushed onto
`retiredTrails` by `setOrbCount` (the removed orb has no
`trailIndexCount` field, so `removed.trailIndexCount || 0` is 0;
`color` is the orb's trail color). -/
structure RetiredTrail where
  trailPositions : List Vec3
  size : ℚ
  alphaScale : ℚ
  fade : ℚ
  trailDirty : Bool
  trailIndexCount : ℕ
  color : Vec3

/-- The module-level simulation state of scene.js relevant to the orb
population (`glRef` abstracted to whether the scene was initialized). -/
structure SimState where
  orbStates : List Orb
  orbCount : ℕ
  retiredTrails : List RetiredTrail
  orbIdCounter : ℕ
  glRef : Bool

/-- The trail color component of `getOrbColors` (the only part consumed
by the retirement path via `getOrbTrailColor`). -/
def getOrbTrailColor (o : Orb) : Vec3 :=
  if o.isChaser then ⟨1, 0.55, 0.55⟩ else ⟨1, 1, 1⟩

/-- The `createOrbState` constructor: the random-valued fields consume the
stream in object-literal order (angle, direction, wobblePhaseA,
wobblePhaseB, planeNormal); `idc` is the current `orbIdCounter`. -/
def createOrbState (M : JsMath) (k : ℕ) (idc : ℕ) : Orb × ℕ :=
  let angle := (randomRange M k 0 (mathPI * 2)).1
  let dir : ℚ := if M.random (k + 1) < 0.5 then -1 else 1
  let wA := (randomRange M (k + 2) 0 (mathPI * 2)).1
  let wB := (randomRange M (k + 3) 0 (mathPI * 2)).1
  let pn := (randomUnitVec3 M (k + 4)).1
  (⟨idc, angle, 0.6, 1.6, 0.2, 0.07, 220, [], true, dir, 0.6, 1.6, 0.2, 0, 1.4,
    0, 0, false, wA, wB, 1.6, 0.2, pn, ⟨0, 1, 0⟩, false, false, false, false,
    none⟩, k + 6)

/-- The `pickNewFlightSegment` re-roll: note the short-circuit `||`, which
skips the `Math.random()` draw when `forceFlip` is set. -/
def pickNewFlightSegment (M : JsMath) (k : ℕ) (o : Orb) (forceFlip : Bool) :
    Orb × ℕ :=
  let fl : Bool × ℕ := if forceFlip then (true, k) else (decide (M.random k < 0.35), k + 1)
  let flip := fl.1
  let k := fl.2
  let o := if flip then {o with direction := o.direction * (-1)} else o
  let o := {o with segmentTime := 0}
  let o := {o with segmentDuration := (randomRange M k 0.9 2.4).1}
  let k := k + 1
  let o := {o with targetAngularSpeed := (randomRange M k 0.35 1.8).1}
  let k := k + 1
  let nextRadius := (randomRange M k 1.25 1.95).1
  let k := k + 1
  let o := {o with targetRadius := clampOrbit nextRadius ORBIT_MIN_RADIUS ORBIT_MAX_RADIUS}
  let anywhere := (randomRange M k (-0.32) 0.62).1
  let k := k + 1
  let lift := M.sin (o.wobblePhaseA * 0.5 + M.random k * 0.6) * 0.08
  let k := k + 1
  let o := {o with targetHeight := clampOrbit (anywhere + lift) ORBIT_MIN_HEIGHT ORBIT_MAX_HEIGHT}
  let pl : Bool × ℕ := if forceFlip then (true, k) else (decide (M.random k < 0.6), k + 1)
  let k := pl.2
  let ok : Orb × ℕ :=
    if pl.1 then
      let rv := randomUnitVec3 M k
      ({o with targetPlaneNormal := rv.1}, rv.2)
    else (o, k)
  let o := ok.1
  let k := ok.2
  ({o with teleportPlanned := false, teleportDone := false}, k)

/-- The orbit position kernel `currentOrbiterPosition` (its `??` fallbacks
never fire because `renderRadius`/`renderHeight` are always initialized). -/
def currentOrbiterPosition (M : JsMath) (o : Orb) : Vec3 :=
  let a := o.angle
  let r := o.renderRadius
  let h := o.renderHeight
  let n := o.planeNormal
  let helper : Vec3 := if |n.y| < 0.9 then ⟨0, 1, 0⟩ else ⟨1, 0, 0⟩
  let right := normalizeVec3 M
    ⟨n.y * helper.z - n.z * helper.y,
     n.z * helper.x - n.x * helper.z,
     n.x * helper.y - n.y * helper.x⟩
  let forward : Vec3 :=
    ⟨right.y * n.z - right.z * n.y,
     right.z * n.x - right.x * n.z,
     right.x * n.y - right.y * n.x⟩
  ⟨right.x * M.cos a * r + forward.x * M.sin a * r + n.x * h,
   right.y * M.cos a * r + forward.y * M.sin a * r + n.y * h,
   right.z * M.cos a * r + forward.z * M.sin a * r + n.z * h⟩

/-- The `performTeleport` relocation: new random plane, angle, clamped
radius and height, and the `skipTrailInterpolation` mark. -/
def performTeleport (M : JsMath) (k : ℕ) (o : Orb) : Orb × ℕ :=
  let rv := randomUnitVec3 M k
  let pn := normalizeVec3 M rv.1
  let k := rv.2
  let a := (randomRange M k 0 (mathPI * 2)).1
  let k := k + 1
  let r := clampOrbit (randomRange M k 1.2 1.95).1 ORBIT_MIN_RADIUS ORBIT_MAX_RADIUS
  let k := k + 1
  let h := clampOrbit (randomRange M k (-0.25) 0.55).1 ORBIT_MIN_HEIGHT ORBIT_MAX_HEIGHT
  let k := k + 1
  ({o with planeNormal := pn, targetPlaneNormal := pn, angle := a,
           radius := r, renderRadius := r, height := h, renderHeight := h,
           skipTrailInterpolation := true}, k)

/-- Trail appending, the tail section of `updateSingleOrb`: a direct jump
(one point, flag cleared) when `skipTrailInterpolation` is set or the
measured distance exceeds `TELEPORT_BREAK_DIST`; otherwise the segment from
`last` to `p` is subdivided into `Math.max(1, Math.ceil(dist / maxGap))`
steps (`maxGap = 0.045`). -/
def appendTrailPoints (skip : Bool) (trail : List Vec3) (last p : Vec3)
    (dist : ℚ) : List Vec3 × Bool :=
  if skip || decide (dist > TELEPORT_BREAK_DIST) then
    (trail ++ [p], false)
  else
    let steps : ℤ := max 1 ⌈dist / 0.045⌉
    (trail ++ (List.range steps.toNat).map
      (fun i : ℕ => lerpVec3 last p (((i : ℚ) + 1) / (steps : ℚ))), skip)

/-- Front eviction `while (trail.length > trailMax) trail.shift()`. -/
def trailEvict (tr : List Vec3) (m : ℕ) : List Vec3 := tr.drop (tr.length - m)

/-- The `isPaused` branch of `updateSingleOrb`: decrement the pause timer,
possibly execute a planned teleport once, ease the angular speed toward 0,
and leave the pause through `pickNewFlightSegment` when the timer runs out. -/
def pausedStep (M : JsMath) (k : ℕ) (o : Orb) (dt : ℚ) : Orb × ℕ :=
  let o := {o with pauseTimer := o.pauseTimer - dt}
  let tk : Orb × ℕ :=
    if o.teleportPlanned && !o.teleportDone &&
        decide (o.pauseTimer ≤ o.pauseDuration * 0.4) then
      let pt := performTeleport M k o
      ({pt.1 with teleportDone := true}, pt.2)
    else (o, k)
  let o := tk.1
  let k := tk.2
  let o := {o with angularSpeed := o.angularSpeed + (0 - o.angularSpeed) * min 1 (dt * 6)}
  if decide (o.pauseTimer ≤ 0) then
    pickNewFlightSegment M k {o with isPaused := false} false
  else (o, k)

/-- The cruising branch of `updateSingleOrb`: jittered speed easing, angle
advance, radius/height easing, and segment-end handling (30% chance to
enter a pause, optionally planning a teleport with probability 0.45,
otherwise a segment re-roll). -/
def cruiseStep (M : JsMath) (k : ℕ) (o : Orb) (dt : ℚ) : Orb × ℕ :=
  let speedJitter := 1 + 0.35 * M.sin (o.wobblePhaseA * 0.7)
  let targetSpeed := o.targetAngularSpeed * speedJitter
  let av : ℚ := o.angularSpeed + (targetSpeed - o.angularSpeed) * min 1 (dt * 3.5)
  let ang : ℚ := o.angle + av * o.direction * dt
  let rad : ℚ := o.radius + (o.targetRadius - o.radius) * min 1 (dt * 2.2)
  let hei : ℚ := o.height + (o.targetHeight - o.height) * min 1 (dt * 2.2)
  let st : ℚ := o.segmentTime + dt
  let o : Orb := {o with angularSpeed := av, angle := ang, radius := rad,
                         height := hei, segmentTime := st}
  if decide (o.segmentTime ≥ o.segmentDuration) then
    if decide (M.random k < 0.3) then
      let pd := (randomRange M (k + 1) 0.35 0.9).1
      let tp := decide (M.random (k + 2) < 0.45)
      ({o with isPaused := true, pauseDuration := pd, pauseTimer := pd, teleportPlanned := tp, teleportDone := false, segmentTime := 0}, k + 3)
    else pickNewFlightSegment M (k + 1) o false
  else (o, k)

/-- Opening statements of `updateSingleOrb`: wobble-phase advance and
orbital-plane easing with renormalization. -/
def preStep (M : JsMath) (o : Orb) (dt : ℚ) : Orb :=
  let o := {o with wobblePhaseA := o.wobblePhaseA + dt * 2.6,
                   wobblePhaseB := o.wobblePhaseB + dt * 3.7}
  let pn := normalizeVec3 M (lerpVec3 o.planeNormal o.targetPlaneNormal (min 1 (dt * 1.8)))
  {o with planeNormal := pn}

/-- Closing statements of `updateSingleOrb`: wobble applied and clamped
into `renderRadius`/`renderHeight`, then the trail update and the
`trailDirty` mark. -/
def postStep (M : JsMath) (o : Orb) : Orb :=
  let radialWobble := M.sin o.wobblePhaseA * 0.08 + M.sin (o.wobblePhaseB + 1.1) * 0.05
  let verticalWobble := M.sin (o.wobblePhaseA * 1.3 + 0.4) * 0.05 +
    M.sin (o.wobblePhaseB * 0.6 + 1.1) * 0.035
  let rr := clampOrbit (o.radius + radialWobble) ORBIT_MIN_RADIUS ORBIT_MAX_RADIUS
  let rh := clampOrbit (o.height + verticalWobble) ORBIT_MIN_HEIGHT ORBIT_MAX_HEIGHT
  let o := {o with renderRadius := rr, renderHeight := rh}
  let p := currentOrbiterPosition M o
  let last := o.trailPositions.getLast?.getD p
  let dist := M.hypot3 (p.x - last.x) (p.y - last.y) (p.z - last.z)
  let ts : List Vec3 × Bool := appendTrailPoints o.skipTrailInterpolation o.trailPositions last p dist
  {o with trailPositions := trailEvict ts.1 o.trailMax, skipTrailInterpolation := ts.2, trailDirty := true}

/-- The per-entity tick `updateSingleOrb`: the opening statements, the
paused/cruising branch, then the closing wobble/clamp/trail statements. -/
def updateSingleOrb (M : JsMath) (k : ℕ) (o : Orb) (dt : ℚ) : Orb × ℕ :=
  let o := preStep M o dt
  let bk : Orb × ℕ := if o.isPaused then pausedStep M k o dt else cruiseStep M k o dt
  (postStep M bk.1, bk.2)

/-- The `steerChaser` step: if the target id is live, reorient the chaser's
`targetPlaneNormal` toward the normalized cross product of the two world
positions (with a `1e-4` degeneracy cutoff) and floor its target speed
at 1.3. -/
def steerChaser (M : JsMath) (orbs : List Orb) (orb : Orb) : Orb :=
  match orbs.find? (fun o => orb.targetId = some o.id) with
  | none => orb
  | some target =>
    let p := currentOrbiterPosition M orb
    let t := currentOrbiterPosition M target
    let desired := crossV p t
    let len := M.hypot3 desired.x desired.y desired.z
    if decide (len < 0.0001) then orb
    else
      {orb with
        targetPlaneNormal := ⟨desired.x / len, desired.y / len, desired.z / len⟩,
        targetAngularSpeed := max orb.targetAngularSpeed 1.3}

/-- The `assignTargetFor` step: pick a random distinct live entity as
target and floor the chaser's target speed at 1.1.  An out-of-range random
index cannot occur for `Math.random()` values in `[0, 1)`; that dead branch
is modelled as leaving the orb unchanged. -/
def assignTargetFor (M : JsMath) (k : ℕ) (orbs : List Orb) (orb : Orb) :
    Orb × ℕ :=
  let targets := orbs.filter (fun o => o.id ≠ orb.id)
  if targets.isEmpty then ({orb with targetId := none}, k)
  else
    let idx := (⌊M.random k * targets.length⌋).toNat
    match targets[idx]? with
    | some target =>
      ({orb with targetId := some target.id,
                 targetAngularSpeed := max orb.targetAngularSpeed 1.1}, k + 1)
    | none => (orb, k + 1)

/-- The selection loop of `assignChasers`: repeatedly splice a random index
out of `indices`, mark that orb as a chaser and give it a target.
Out-of-range random indices (impossible for `Math.random()` in `[0, 1)`)
are modelled as skipping the iteration. -/
def assignChasersLoop (M : JsMath) : ℕ → ℕ → List ℕ → List Orb → List Orb × ℕ
  | 0, k, _, orbs => (orbs, k)
  | n + 1, k, indices, orbs =>
    let idx := (⌊M.random k * indices.length⌋).toNat
    match indices[idx]? with
    | none => assignChasersLoop M n (k + 1) indices orbs
    | some orbIdx =>
      match orbs[orbIdx]? with
      | none => assignChasersLoop M n (k + 1) (indices.eraseIdx idx) orbs
      | some orb =>
        let orbs1 := orbs.set orbIdx {orb with isChaser := true}
        let at1 := assignTargetFor M (k + 1) orbs1 {orb with isChaser := true}
        assignChasersLoop M n at1.2 (indices.eraseIdx idx) (orbs1.set orbIdx at1.1)

/-- The `assignChasers` pass: no-op below 2 entities, otherwise clear all
chaser flags/targets and mark `max(1, ⌊0.3·n⌋)` random entities as
chasers. -/
def assignChasers (M : JsMath) (k : ℕ) (orbs : List Orb) : List Orb × ℕ :=
  if orbs.length < 2 then (orbs, k)
  else
    let orbs := orbs.map (fun o => {o with isChaser := false, targetId := none})
    let chaserCount := max 1 (⌊(orbs.length : ℚ) * 0.3⌋).toNat
    assignChasersLoop M chaserCount k (List.range orbs.length) orbs

/-- The collision response for the pair `(i, j)` of `resolveOrbCollisions`
(one inner-loop iteration): if the measured distance is strictly between 0
and `minDist = 0.18`, both render radii are pushed out by
`overlap * 0.05` with `overlap = (minDist - dist) * 0.5`, both directions
flip, and the two angles are perturbed by `+0.2` and `-0.2`. -/
def collidePair (M : JsMath) (orbs : List Orb) (i j : ℕ) : List Orb :=
  let minDist : ℚ := 0.18
  match orbs[i]?, orbs[j]? with
  | some oi, some oj =>
    let a := currentOrbiterPosition M oi
    let b := currentOrbiterPosition M oj
    let dist := M.hypot3 (b.x - a.x) (b.y - a.y) (b.z - a.z)
    if decide (0 < dist) && decide (dist < minDist) then
      let overlap := (minDist - dist) * 0.5
      let oi := {oi with renderRadius := oi.renderRadius + overlap * 0.05, direction := oi.direction * (-1), angle := oi.angle + 0.2}
      let oj := {oj with renderRadius := oj.renderRadius + overlap * 0.05, direction := oj.direction * (-1), angle := oj.angle - 0.2}
      (orbs.set i oi).set j oj
    else orbs
  | _, _ => orbs

/-- Inner `j` loop of `resolveOrbCollisions`, with an explicit iteration
count (list length is preserved by every `collidePair`). -/
def collideInner (M : JsMath) : ℕ → ℕ → ℕ → List Orb → List Orb
  | 0, _, _, orbs => orbs
  | n + 1, i, j, orbs => collideInner M n i (j + 1) (collidePair M orbs i j)

/-- Outer `i` loop of `resolveOrbCollisions`. -/
def collideOuter (M : JsMath) : ℕ → ℕ → List Orb → List Orb
  | 0, _, orbs => orbs
  | n + 1, i, orbs =>
    collideOuter M n (i + 1) (collideInner M (orbs.length - (i + 1)) i (i + 1) orbs)

/-- The O(n²) `resolveOrbCollisions` pass over all unordered pairs, in
list order, observing mutations made by earlier pairs. -/
def resolveOrbCollisions (M : JsMath) (orbs : List Orb) : List Orb :=
  collideOuter M orbs.length 0 orbs

/-- The `updateOrbiters` per-entity loop: update each orb in population
order and, if it is a chaser with a (truthy) target id, steer it against
the partially-updated population, as the in-place JS mutation does. -/
def updateOrbsLoop (M : JsMath) : ℕ → List Orb → ℕ → ℚ → ℕ → List Orb × ℕ
  | 0, orbs, _, _, k => (orbs, k)
  | n + 1, orbs, i, dt, k =>
    match orbs[i]? with
    | none => (orbs, k)
    | some o =>
      let uk := updateSingleOrb M k o dt
      let orbs1 := orbs.set i uk.1
      let orbs2 : List Orb :=
        if uk.1.isChaser && uk.1.targetId.isSome then
          orbs1.set i (steerChaser M orbs1 uk.1)
        else orbs1
      updateOrbsLoop M n orbs2 (i + 1) dt uk.2

/-- One `updateOrbiters` tick: per-entity updates (with chaser steering)
followed by the collision pass. -/
def updateOrbiters (M : JsMath) (k : ℕ) (s : SimState) (dt : ℚ) :
    SimState × ℕ :=
  let ol := updateOrbsLoop M s.orbStates.length s.orbStates 0 dt k
  ({s with orbStates := resolveOrbCollisions M ol.1}, ol.2)

/-- Seeding loop shared by `initOrbiters` and the growing branch of
`setOrbCount`: each new orb gets a random state, its trail seeded with its
current position, and a forced segment re-roll. -/
def seedOrbsLoop (M : JsMath) : ℕ → ℕ → ℕ → List Orb → List Orb × ℕ × ℕ
  | 0, k, idc, acc => (acc, k, idc)
  | n + 1, k, idc, acc =>
    let ck := createOrbState M k idc
    let st := ck.1
    let st := {st with trailPositions := [currentOrbiterPosition M st],
                       trailDirty := true}
    let pk := pickNewFlightSegment M ck.2 st true
    seedOrbsLoop M n pk.2 (idc + 1) (acc ++ [pk.1])

/-- The simulation part of `initOrbiters`: seed `orbCount` orb states and
run chaser assignment (GPU buffer setup omitted). -/
def initOrbiters (M : JsMath) (k : ℕ) (s : SimState) : SimState × ℕ :=
  let sk := seedOrbsLoop M s.orbCount k s.orbIdCounter []
  let ak := assignChasers M sk.2.1 sk.1
  ({s with orbStates := ak.1, orbIdCounter := sk.2.2}, ak.2)

/-- The RetiredTrail built from a removed orb in `setOrbCount`. -/
def mkRetiredTrail (o : Orb) : RetiredTrail :=
  ⟨o.trailPositions, o.size, 1, 1.2, true, 0, getOrbTrailColor o⟩

/-- The shrinking loop of `setOrbCount`: pop entities from the end,
converting each one that has a nonempty trail into a RetiredTrail. -/
def shrinkLoop : ℕ → List Orb → List RetiredTrail → List Orb × List RetiredTrail
  | 0, orbs, ret => (orbs, ret)
  | n + 1, orbs, ret =>
    match orbs.getLast? with
    | none => (orbs, ret)
    | some removed =>
      shrinkLoop n orbs.dropLast
        (if removed.trailPositions.isEmpty then ret
         else ret ++ [mkRetiredTrail removed])

/-- The population controller `setOrbCount`: clamp
`Math.floor(count || 1)` into `[1, 20]`, then defer (not initialized),
initialize, grow (with chaser reassignment) or shrink (retiring trails,
without chaser reassignment). -/
def setOrbCount (M : JsMath) (k : ℕ) (s : SimState) (count : ℚ) :
    SimState × ℕ :=
  let next : ℕ := (max 1 (min 20 ⌊if count = 0 then 1 else count⌋)).toNat
  if !s.glRef then ({s with orbCount := next}, k)
  else if s.orbStates.isEmpty then initOrbiters M k {s with orbCount := next}
  else if next > s.orbStates.length then
    let sk := seedOrbsLoop M (next - s.orbStates.length) k s.orbIdCounter []
    let ak := assignChasers M sk.2.1 (s.orbStates ++ sk.1)
    ({s with orbStates := ak.1, orbIdCounter := sk.2.2, orbCount := next}, ak.2)
  else if next < s.orbStates.length then
    let sr := shrinkLoop (s.orbStates.length - next) s.orbStates s.retiredTrails
    ({s with orbStates := sr.1, retiredTrails := sr.2, orbCount := next}, k)
  else ({s with orbCount := next}, k)

/-- The `getOrbCount` accessor. -/
def getOrbCount (s : SimState) : ℕ := s.orbCount

/-- Orbit camera state (the derived `view`/`projection` matrices and the
fixed `target` look-at point are render-side and omitted). -/
structure Camera where
  radius : ℚ
  minRadius : ℚ
  maxRadius : ℚ
  theta : ℚ
  phi : ℚ
  isDragging : Bool
  lastMouseX : ℚ
  lastMouseY : ℚ
  rotationSpeed : ℚ
  zoomSpeed : ℚ

/-- The module-level `camera` initializer of scene.js. -/
def initialCamera : Camera :=
  ⟨4.5, 2.5, 8, 0, mathPI / 3, false, 0, 0, 0.0035, 0.15⟩

/-- Pointer state carried by a mouse event (`movementX`/`movementY` are
`none` when the browser does not provide them, matching the
`typeof event.movementX === "number"` check). -/
structure MouseEvent where
  clientX : ℚ
  clientY : ℚ
  movementX : Option ℚ
  movementY : Option ℚ

/-- The six held-key flags of `cameraInput`. -/
structure CameraInput where
  left : Bool
  right : Bool
  up : Bool
  down : Bool
  zoomIn : Bool
  zoomOut : Bool

/-- The `handleMouseDown` listener. -/
def handleMouseDown (c : Camera) (e : MouseEvent) : Camera :=
  {c with isDragging := true, lastMouseX := e.clientX, lastMouseY := e.clientY}

/-- The `handleMouseUp` listener. -/
def handleMouseUp (c : Camera) : Camera := {c with isDragging := false}

/-- The `handleMouseMove` listener: drag deltas update `theta` freely and
`phi` with a `[0.1, π - 0.1]` clamp. -/
def handleMouseMove (c : Camera) (e : MouseEvent) : Camera :=
  if !c.isDragging then c
  else
    let deltaX := e.movementX.getD (e.clientX - c.lastMouseX)
    let deltaY := e.movementY.getD (e.clientY - c.lastMouseY)
    let c := {c with theta := c.theta + deltaX * c.rotationSpeed,
                     phi := c.phi - deltaY * c.rotationSpeed}
    let c := {c with phi := max 0.1 (min (mathPI - 0.1) c.phi)}
    {c with lastMouseX := e.clientX, lastMouseY := e.clientY}

/-- The `handleWheel` listener: zoom delta with a full radius clamp. -/
def handleWheel (c : Camera) (deltaY : ℚ) : Camera :=
  let delta := deltaY * c.zoomSpeed * 0.01
  {c with radius := max c.minRadius (min c.maxRadius (c.radius + delta))}

/-- Statement `if (cameraInput.left) ...` of `applyCameraKeyboard`. -/
def keysLeft (b : Bool) (c : Camera) (rotSpeed : ℚ) : Camera :=
  if b then {c with theta := c.theta - rotSpeed} else c

/-- Statement `if (cameraInput.right) ...` of `applyCameraKeyboard`. -/
def keysRight (b : Bool) (c : Camera) (rotSpeed : ℚ) : Camera :=
  if b then {c with theta := c.theta + rotSpeed} else c

/-- Statement `if (cameraInput.up) ...` of `applyCameraKeyboard`. -/
def keysUp (b : Bool) (c : Camera) (rotSpeed : ℚ) : Camera :=
  if b then {c with phi := max 0.1 (c.phi - rotSpeed)} else c

/-- Statement `if (cameraInput.down) ...` of `applyCameraKeyboard`. -/
def keysDown (b : Bool) (c : Camera) (rotSpeed : ℚ) : Camera :=
  if b then {c with phi := min (mathPI - 0.1) (c.phi + rotSpeed)} else c

/-- Statement `if (cameraInput.zoomIn) ...` of `applyCameraKeyboard`. -/
def keysZoomIn (b : Bool) (c : Camera) (zoomDelta : ℚ) : Camera :=
  if b then {c with radius := max c.minRadius (c.radius - zoomDelta)} else c

/-- Statement `if (cameraInput.zoomOut) ...` of `applyCameraKeyboard`. -/
def keysZoomOut (b : Bool) (c : Camera) (zoomDelta : ℚ) : Camera :=
  if b then {c with radius := min c.maxRadius (c.radius + zoomDelta)} else c

/-- The per-frame `applyCameraKeyboard` step for held keys: the six guarded
updates in source order, with `rotSpeed = 1.4 * dt` and
`zoomDelta = zoomSpeed * 1.2` computed up front from the incoming camera. -/
def applyCameraKeyboard (inp : CameraInput) (c : Camera) (dt : ℚ) : Camera :=
  let rotSpeed := 1.4 * dt
  let zoomDelta := c.zoomSpeed * 1.2
  keysZoomOut inp.zoomOut
    (keysZoomIn inp.zoomIn
      (keysDown inp.down
        (keysUp inp.up
          (keysRight inp.right
            (keysLeft inp.left c rotSpeed) rotSpeed) rotSpeed) rotSpeed)
      zoomDelta) zoomDelta

/-- The exported `setCameraState`: each of `theta`/`phi`/`radius` is
written only when the argument is a number, with `phi` and `radius`
clamped on write and `theta` stored as given. -/
def setCameraState (c : Camera) (theta phi radius : Option ℚ) : Camera :=
  let c := match theta with
    | some t => {c with theta := t}
    | none => c
  let c := match phi with
    | some p => {c with phi := max 0.1 (min (mathPI - 0.1) p)}
    | none => c
  match radius with
  | some r => {c with radius := max c.minRadius (min c.maxRadius r)}
  | none => c

/-- One camera-affecting input, covering every code path that mutates the
camera state. -/
inductive CamEvent where
  | mouseDown (e : MouseEvent)
  | mouseUp
  | mouseMove (e : MouseEvent)
  | wheel (deltaY : ℚ)
  | keys (inp : CameraInput) (dt : ℚ)
  | setState (theta phi radius : Option ℚ)

/-- Dispatch of one camera input to the listener that handles it. -/
def camStep (c : Camera) : CamEvent → Camera
  | .mouseDown e => handleMouseDown c e
  | .mouseUp => handleMouseUp c
  | .mouseMove e => handleMouseMove c e
  | .wheel d => handleWheel c d
  | .keys inp dt => applyCameraKeyboard inp c dt
  | .setState t p r => setCameraState c t p r

/-- Admissible inputs: frame deltas fed to the keyboard handler are
nonnegative (elapsed time). -/
def validEvent : CamEvent → Prop
  | .keys _ dt => 0 ≤ dt
  | _ => True

/-- The camera invariant of the spec (`phi` and `radius` bounds), together
with the structural facts it needs (the radius window is nonempty and the
zoom speed nonnegative; both are constants the code never mutates). -/
def camInv (c : Camera) : Prop :=
  0.1 ≤ c.phi ∧ c.phi ≤ mathPI - 0.1 ∧
    c.minRadius ≤ c.radius ∧ c.radius ≤ c.maxRadius ∧
    c.minRadius ≤ c.maxRadius ∧ 0 ≤ c.zoomSpeed

instance (c : Camera) : Decidable (camInv c) := by
  unfold camInv; infer_instance

-- Facts about the invariant bounds.

theorem mathPI_bound : (0.1 : ℚ) ≤ mathPI - 0.1 := by norm_num [mathPI]

theorem camInv_mouseDown (c : Camera) (e : MouseEvent) (h : camInv c) :
    camInv (handleMouseDown c e) := by
  obtain ⟨h1, h2, h3, h4, h5, h6⟩ := h
  exact ⟨h1, h2, h3, h4, h5, h6⟩

theorem camInv_mouseUp (c : Camera) (h : camInv c) :
    camInv (handleMouseUp c) := by
  obtain ⟨h1, h2, h3, h4, h5, h6⟩ := h
  exact ⟨h1, h2, h3, h4, h5, h6⟩

theorem camInv_mouseMove (c : Camera) (e : MouseEvent) (h : camInv c) :
    camInv (handleMouseMove c e) := by
  obtain ⟨h1, h2, h3, h4, h5, h6⟩ := h
  unfold handleMouseMove
  split_ifs with hd
  · exact ⟨h1, h2, h3, h4, h5, h6⟩
  · exact ⟨le_max_left _ _, max_le mathPI_bound (min_le_left _ _), h3, h4, h5, h6⟩

theorem camInv_wheel (c : Camera) (d : ℚ) (h : camInv c) :
    camInv (handleWheel c d) := by
  obtain ⟨h1, h2, h3, h4, h5, h6⟩ := h
  exact ⟨h1, h2, le_max_left _ _, max_le h5 (min_le_left _ _), h5, h6⟩

theorem camInv_upd_theta (c : Camera) (b : Bool) (v : ℚ) (h : camInv c) :
    camInv (if b then {c with theta := v} else c) := by
  cases b
  · exact h
  · exact h

theorem camInv_keysUp (b : Bool) (c : Camera) (rot : ℚ) (hrot : 0 ≤ rot)
    (h : camInv c) : camInv (keysUp b c rot) := by
  obtain ⟨h1, h2, h3, h4, h5, h6⟩ := h
  unfold keysUp
  cases b
  · exact ⟨h1, h2, h3, h4, h5, h6⟩
  · show camInv {c with phi := max 0.1 (c.phi - rot)}
    refine ⟨le_max_left _ _, max_le mathPI_bound ?_, h3, h4, h5, h6⟩
    show c.phi - rot ≤ mathPI - 0.1
    linarith

theorem camInv_keysDown (b : Bool) (c : Camera) (rot : ℚ) (hrot : 0 ≤ rot)
    (h : camInv c) : camInv (keysDown b c rot) := by
  obtain ⟨h1, h2, h3, h4, h5, h6⟩ := h
  unfold keysDown
  cases b
  · exact ⟨h1, h2, h3, h4, h5, h6⟩
  · show camInv {c with phi := min (mathPI - 0.1) (c.phi + rot)}
    refine ⟨le_min mathPI_bound ?_, min_le_left _ _, h3, h4, h5, h6⟩
    show (0.1 : ℚ) ≤ c.phi + rot
    linarith

theorem camInv_keysZoomIn (b : Bool) (c : Camera) (zd : ℚ) (hzd : 0 ≤ zd)
    (h : camInv c) : camInv (keysZoomIn b c zd) := by
  obtain ⟨h1, h2, h3, h4, h5, h6⟩ := h
  unfold keysZoomIn
  cases b
  · exact ⟨h1, h2, h3, h4, h5, h6⟩
  · show camInv {c with radius := max c.minRadius (c.radius - zd)}
    refine ⟨h1, h2, le_max_left _ _, max_le h5 ?_, h5, h6⟩
    show c.radius - zd ≤ c.maxRadius
    linarith

theorem camInv_keysZoomOut (b : Bool) (c : Camera) (zd : ℚ) (hzd : 0 ≤ zd)
    (h : camInv c) : camInv (keysZoomOut b c zd) := by
  obtain ⟨h1, h2, h3, h4, h5, h6⟩ := h
  unfold keysZoomOut
  cases b
  · exact ⟨h1, h2, h3, h4, h5, h6⟩
  · show camInv {c with radius := min c.maxRadius (c.radius + zd)}
    refine ⟨h1, h2, le_min h5 ?_, min_le_left _ _, h5, h6⟩
    show c.minRadius ≤ c.radius + zd
    linarith

theorem keysLeft_zoomSpeed (b : Bool) (c : Camera) (r : ℚ) :
    (keysLeft b c r).zoomSpeed = c.zoomSpeed := by
  unfold keysLeft; cases b <;> rfl

theorem keysRight_zoomSpeed (b : Bool) (c : Camera) (r : ℚ) :
    (keysRight b c r).zoomSpeed = c.zoomSpeed := by
  unfold keysRight; cases b <;> rfl

theorem camInv_keys (inp : CameraInput) (c : Camera) (dt : ℚ)
    (h : camInv c) (hdt : 0 ≤ dt) : camInv (applyCameraKeyboard inp c dt) := by
  have hrot : (0 : ℚ) ≤ 1.4 * dt := by linarith
  have hzd : (0 : ℚ) ≤ c.zoomSpeed * 1.2 := by
    have := h.2.2.2.2.2
    linarith
  have hL : camInv (keysLeft inp.left c (1.4 * dt)) := by
    unfold keysLeft; exact camInv_upd_theta c inp.left _ h
  have hR : camInv (keysRight inp.right (keysLeft inp.left c (1.4 * dt)) (1.4 * dt)) := by
    unfold keysRight; exact camInv_upd_theta _ inp.right _ hL
  exact camInv_keysZoomOut _ _ _ hzd
    (camInv_keysZoomIn _ _ _ hzd
      (camInv_keysDown _ _ _ hrot
        (camInv_keysUp _ _ _ hrot hR)))

theorem camInv_setState (c : Camera) (t p r : Option ℚ) (h : camInv c) :
    camInv (setCameraState c t p r) := by
  obtain ⟨h1, h2, h3, h4, h5, h6⟩ := h
  unfold setCameraState
  rcases t with _ | t <;> rcases p with _ | p <;> rcases r with _ | r <;>
    dsimp only <;>
    refine ⟨?_, ?_, ?_, ?_, ?_, ?_⟩ <;>
    first
      | assumption
      | exact le_max_left _ _
      | exact max_le mathPI_bound (min_le_left _ _)
      | exact max_le h5 (min_le_left _ _)

theorem camInv_step (c : Camera) (e : CamEvent) (h : camInv c)
    (hv : validEvent e) : camInv (camStep c e) := by
  cases e with
  | mouseDown e => exact camInv_mouseDown c e h
  | mouseUp => exact camInv_mouseUp c h
  | mouseMove e => exact camInv_mouseMove c e h
  | wheel d => exact camInv_wheel c d h
  | keys inp dt => exact camInv_keys inp c dt h hv
  | setState t p r => exact camInv_setState c t p r h

theorem camInv_foldl (es : List CamEvent) :
    ∀ c : Camera, camInv c → (∀ e ∈ es, validEvent e) →
      camInv (es.foldl camStep c) := by
  induction es with
  | nil => intro c h _; exact h
  | cons e es ih =>
    intro c h hv
    exact ih (camStep c e) (camInv_step c e h (hv e (by simp)))
      (fun e' he' => hv e' (by simp [he']))

theorem camInv_initial : camInv initialCamera := by
  refine ⟨?_, ?_, ?_, ?_, ?_, ?_⟩ <;> norm_num [initialCamera, mathPI]

/-- C7: after any sequence of camera inputs (drags, wheel, held keys with
nonnegative frame deltas, external `setCameraState` calls) starting from
the initial camera, `phi` stays in `[0.1, π - 0.1]` and `radius` stays in
`[minRadius, maxRadius]`; and `setCameraState {phi := 10}` stores
`π - 0.1`. -/
theorem camera_invariant :
    (∀ es : List CamEvent, (∀ e ∈ es, validEvent e) →
      camInv (es.foldl camStep initialCamera)) ∧
    (∀ c : Camera, (setCameraState c none (some 10) none).phi = mathPI - 0.1) := by
  constructor
  · intro es hv
    exact camInv_foldl es initialCamera camInv_initial hv
  · intro c
    unfold setCameraState
    dsimp only
    rw [min_eq_left (by norm_num [mathPI]), max_eq_right mathPI_bound]

/-- Witness for `camera_invariant`: a concrete admissible input sequence
(a drag, a wheel zoom, a held-key frame and an external set) keeps the
invariant, and the clamped `phi` write is observable on the initial
camera. -/
theorem camera_invariant_witness :
    camInv ([CamEvent.mouseDown ⟨3, 4, none, none⟩,
             CamEvent.mouseMove ⟨100, 200, none, none⟩,
             CamEvent.wheel 50,
             CamEvent.keys ⟨true, false, true, false, false, true⟩ 0.016,
             CamEvent.setState (some 7) (some 10) (some 1)].foldl
        camStep initialCamera) ∧
    (setCameraState initialCamera none (some 10) none).phi = mathPI - 0.1 :=
  ⟨camera_invariant.1 _ (by
      intro e he
      simp only [List.mem_cons, List.mem_singleton] at he
      rcases he with rfl | rfl | rfl | rfl | rfl | h
      · trivial
      · trivial
      · trivial
      · norm_num [validEvent]
      · trivial
      · cases h),
   camera_invariant.2 initialCamera⟩

/-- C10: `setCameraState` is a partial update with no other effects: each
of `theta`/`phi`/`radius` changes only when the corresponding argument is
present, `phi` and `radius` are clamped on write, `theta` is stored
unclamped, every other camera field is untouched, and the empty update is
the identity. -/
theorem setCameraState_partial_update :
    ∀ (c : Camera) (t p r : Option ℚ),
      (setCameraState c t p r).theta = t.getD c.theta ∧
      ((p = none → (setCameraState c t p r).phi = c.phi) ∧
        ∀ x, p = some x →
          (setCameraState c t p r).phi = max 0.1 (min (mathPI - 0.1) x)) ∧
      ((r = none → (setCameraState c t p r).radius = c.radius) ∧
        ∀ x, r = some x →
          (setCameraState c t p r).radius = max c.minRadius (min c.maxRadius x)) ∧
      (setCameraState c t p r).minRadius = c.minRadius ∧
      (setCameraState c t p r).maxRadius = c.maxRadius ∧
      (setCameraState c t p r).isDragging = c.isDragging ∧
      (setCameraState c t p r).lastMouseX = c.lastMouseX ∧
      (setCameraState c t p r).lastMouseY = c.lastMouseY ∧
      (setCameraState c t p r).rotationSpeed = c.rotationSpeed ∧
      (setCameraState c t p r).zoomSpeed = c.zoomSpeed ∧
      setCameraState c none none none = c := by
  intro c t p r
  rcases t with _ | t <;> rcases p with _ | p <;> rcases r with _ | r <;>
    simp [setCameraState]

/-- Witness for `setCameraState_partial_update`: on the initial camera, a
call carrying only `phi = 10` leaves `theta` and `radius` alone and stores
the clamped `phi`. -/
theorem setCameraState_partial_update_witness :
    (setCameraState initialCamera none (some 10) none).phi =
      max 0.1 (min (mathPI - 0.1) 10) ∧
    (setCameraState initialCamera none (some 10) none).radius =
      initialCamera.radius :=
  ⟨(setCameraState_partial_update initialCamera none (some 10) none).2.1.2 10 rfl,
   (setCameraState_partial_update initialCamera none (some 10) none).2.2.1.1 rfl⟩

/-- Concrete oracle used to evaluate theorems on explicit inputs: `sin` is
0 everywhere, `cos` is exact at 0, and `hypot3` agrees with the Euclidean
norm on axis-aligned vectors (the only vectors measured in the concrete
scenarios below). -/
def testMath : JsMath :=
  ⟨fun _ => 0,
   fun q => if q = 0 then 1 else 0,
   fun _ => 0,
   fun x y z =>
     if x = 0 ∧ y = 0 then |z|
     else if x = 0 ∧ z = 0 then |y|
     else if y = 0 ∧ z = 0 then |x|
     else 0,
   fun _ => 0⟩

/-- Concrete orb used as a base for explicit scenarios: the fixed initial
field values of `createOrbState` with angle 0, the vertical plane normal
and direction 1. -/
def mkTestOrb (i : ℕ) : Orb :=
  ⟨i, 0, 0.6, 1.6, 0.2, 0.07, 220, [], true, 1, 0.6, 1.6, 0.2, 0, 1.4, 0, 0,
   false, 0, 0, 1.6, 0.2, ⟨0, 1, 0⟩, ⟨0, 1, 0⟩, false, false, false, false, none⟩

/-- C8 (amended): `setOrbCount` stores `clamp(Math.floor(count || 1), 1, 20)`
on every code path, so the immediate `getOrbCount` round-trip returns that
clamp; on integer requests this is exactly `clamp(n, 1, 20)`. -/
theorem orb_count_roundtrip :
    (∀ (M : JsMath) (k : ℕ) (s : SimState) (count : ℚ),
      getOrbCount (setOrbCount M k s count).1
        = (max 1 (min 20 ⌊if count = 0 then 1 else count⌋)).toNat) ∧
    (∀ (M : JsMath) (k : ℕ) (s : SimState) (n : ℤ),
      getOrbCount (setOrbCount M k s (n : ℚ)).1 = (max 1 (min 20 n)).toNat) := by
  have base : ∀ (M : JsMath) (k : ℕ) (s : SimState) (count : ℚ),
      getOrbCount (setOrbCount M k s count).1
        = (max 1 (min 20 ⌊if count = 0 then 1 else count⌋)).toNat := by
    intro M k s count
    simp only [setOrbCount, getOrbCount]
    split_ifs <;> rfl
  refine ⟨base, fun M k s n => ?_⟩
  rw [base]
  by_cases h : n = 0
  · subst h; norm_num
  · rw [if_neg (by exact_mod_cast h), Int.floor_intCast]

/-- Counterexample for C8 as stated: requesting the non-integer count 5/2
on a live 3-entity population yields a population count of 2, not
`clamp(5/2, 1, 20) = 5/2`, because `setOrbCount` floors the request. -/
theorem orb_count_roundtrip_cex :
    getOrbCount (setOrbCount testMath 0
        ⟨[mkTestOrb 1, mkTestOrb 2, mkTestOrb 3], 3, [], 4, true⟩ (5 / 2)).1 = 2 ∧
    ((getOrbCount (setOrbCount testMath 0
        ⟨[mkTestOrb 1, mkTestOrb 2, mkTestOrb 3], 3, [], 4, true⟩ (5 / 2)).1 : ℚ)
      ≠ max 1 (min 20 (5 / 2 : ℚ))) := by
  constructor
  · with_unfolding_all decide
  · with_unfolding_all decide

/-- C9: the orbit position kernel on an entity with angle 0,
renderRadius 2, renderHeight 0 and planeNormal `[0,1,0]` (under a trig
oracle exact at these inputs) returns `right·cos(0)·2 = [0,0,-2]` for the
basis vector `right = [0,0,-1]` the kernel builds — the stated `[2,0,0]`
up to the arbitrary choice of reference axis: the output has squared norm
`2²` and is orthogonal to the plane normal. -/
theorem position_kernel_scenario (M : JsMath)
    (hc : M.cos 0 = 1) (hs : M.sin 0 = 0) (hh : M.hypot3 0 0 (-1) = 1) :
    currentOrbiterPosition M {mkTestOrb 1 with renderRadius := 2, renderHeight := 0}
      = ⟨0, 0, -2⟩ ∧
    quadrance ⟨0, 0, -2⟩ = 2 ^ 2 ∧
    dotV ⟨0, 0, -2⟩ (mkTestOrb 1).planeNormal = 0 := by
  refine ⟨?_, by norm_num [quadrance], by norm_num [dotV, mkTestOrb]⟩
  unfold currentOrbiterPosition normalizeVec3 mkTestOrb
  norm_num
  rw [hh, hc, hs]
  norm_num

/-- Witness for `position_kernel_scenario`: the concrete oracle satisfies
its hypotheses, and the kernel output is `[0,0,-2]`. -/
theorem position_kernel_scenario_witness :
    testMath.cos 0 = 1 ∧
    currentOrbiterPosition testMath
      {mkTestOrb 1 with renderRadius := 2, renderHeight := 0} = ⟨0, 0, -2⟩ :=
  ⟨by with_unfolding_all decide,
   (position_kernel_scenario testMath (by with_unfolding_all decide)
      (by with_unfolding_all decide) (by with_unfolding_all decide)).1⟩

/-- The distance measured by `resolveOrbCollisions` for an ordered pair:
`Math.hypot` of the componentwise difference of the two current world
positions. -/
def pairDist (M : JsMath) (a b : Orb) : ℚ :=
  M.hypot3 ((currentOrbiterPosition M b).x - (currentOrbiterPosition M a).x)
    ((currentOrbiterPosition M b).y - (currentOrbiterPosition M a).y)
    ((currentOrbiterPosition M b).z - (currentOrbiterPosition M a).z)

/-- The post-collision state of the lower-indexed entity of a colliding
pair. -/
def collidedLow (a : Orb) (d : ℚ) : Orb :=
  {a with renderRadius := a.renderRadius + (0.18 - d) * 0.5 * 0.05,
          direction := a.direction * (-1), angle := a.angle + 0.2}

/-- The post-collision state of the higher-indexed entity of a colliding
pair. -/
def collidedHigh (b : Orb) (d : ℚ) : Orb :=
  {b with renderRadius := b.renderRadius + (0.18 - d) * 0.5 * 0.05,
          direction := b.direction * (-1), angle := b.angle - 0.2}

/-- C3 (amended): for a pair at measured distance `0 < d < 0.18` the
response is symmetric — both `renderRadius` fields grow by
`(0.18 - d) * 0.5 * 0.05` (0.05 times half the overlap, not half the
overlap itself), both directions flip, and the two angles are perturbed by
the equal-magnitude opposite amounts `+0.2` and `-0.2`; a pair at distance
0 or at least 0.18 is left unchanged. -/
theorem collision_response_spec (M : JsMath) (a b : Orb) :
    (0 < pairDist M a b → pairDist M a b < 0.18 →
      resolveOrbCollisions M [a, b] =
        [collidedLow a (pairDist M a b), collidedHigh b (pairDist M a b)]) ∧
    ((pairDist M a b = 0 ∨ (0.18 : ℚ) ≤ pairDist M a b) →
      resolveOrbCollisions M [a, b] = [a, b]) := by
  have expand : ∀ l : List Orb, l.length = 2 →
      resolveOrbCollisions M l = collidePair M l 0 1 := by
    intro l hl
    have h2 : (collidePair M l 0 1).length = 2 := by
      unfold collidePair
      rcases l with _ | ⟨x, _ | ⟨y, _ | ⟨z, t⟩⟩⟩ <;> simp_all <;> split_ifs <;> simp
    unfold resolveOrbCollisions
    rw [hl]
    show collideOuter M 2 0 l = _
    unfold collideOuter
    rw [hl]
    show collideOuter M 1 1 (collideInner M 1 0 1 l) = _
    unfold collideInner
    show collideOuter M 1 1 (collideInner M 0 0 2 (collidePair M l 0 1)) = _
    unfold collideInner
    unfold collideOuter
    rw [h2]
    show collideOuter M 0 2 (collideInner M 0 1 2 (collidePair M l 0 1)) = _
    unfold collideInner collideOuter
    rfl
  have hpair : collidePair M [a, b] 0 1 =
      if decide (0 < pairDist M a b) && decide (pairDist M a b < 0.18) then
        [collidedLow a (pairDist M a b), collidedHigh b (pairDist M a b)]
      else [a, b] := by
    unfold collidePair pairDist collidedLow collidedHigh
    simp [List.set]
  constructor
  · intro h1 h2
    rw [expand [a, b] rfl, hpair]
    simp [decide_eq_true h1, decide_eq_true h2]
  · intro h
    rw [expand [a, b] rfl, hpair]
    rcases h with h | h
    · simp [h]
    · simp [not_lt.mpr h]

set_option maxRecDepth 4000 in
/-- Counterexample for C3 as stated: a colliding pair at distance 0.1
(render radii 1.6) ends with `renderRadius = 1.602` on both sides — the
radius nudge is `0.05 × (0.18 − 0.1)/2 = 0.002`, not half the overlap
`(0.18 − 0.1)/2 = 0.04`. -/
theorem collision_nudge_amount_cex :
    (resolveOrbCollisions testMath
        [mkTestOrb 1, {mkTestOrb 2 with renderHeight := 0.3}]).map Orb.renderRadius
      = [1.602, 1.602] ∧
    (1.602 : ℚ) ≠ 1.6 + (0.18 - 0.1) / 2 := by
  constructor
  · with_unfolding_all decide
  · with_unfolding_all decide

/-- Witness for `collision_response_spec`: the colliding-pair branch fires
on a concrete pair at distance 0.1. -/
theorem collision_response_spec_witness :
    resolveOrbCollisions testMath
        [mkTestOrb 1, {mkTestOrb 2 with renderHeight := 0.3}] =
      [collidedLow (mkTestOrb 1)
          (pairDist testMath (mkTestOrb 1) {mkTestOrb 2 with renderHeight := 0.3}),
       collidedHigh {mkTestOrb 2 with renderHeight := 0.3}
          (pairDist testMath (mkTestOrb 1) {mkTestOrb 2 with renderHeight := 0.3})] :=
  (collision_response_spec testMath (mkTestOrb 1)
      {mkTestOrb 2 with renderHeight := 0.3}).1
    (by with_unfolding_all decide) (by with_unfolding_all decide)

theorem drop_append_of_le_len {α : Type} (l l2 : List α) (n : ℕ)
    (h : n ≤ l.length) : (l ++ l2).drop n = l.drop n ++ l2 := by
  rw [List.drop_append_eq_append_drop]
  simp [Nat.sub_eq_zero_of_le h]

/-- Closed form of the shrinking loop: it removes the last `m` entities and
appends, for each removed entity with a nonempty trail (last removed
first), its RetiredTrail snapshot. -/
theorem shrinkLoop_eq (m : ℕ) :
    ∀ (orbs : List Orb) (ret : List RetiredTrail), m ≤ orbs.length →
      shrinkLoop m orbs ret =
        (orbs.take (orbs.length - m),
         ret ++ ((orbs.drop (orbs.length - m)).reverse.filter
            (fun o => !o.trailPositions.isEmpty)).map mkRetiredTrail) := by
  induction m with
  | zero =>
    intro orbs ret h
    simp [shrinkLoop]
  | succ m ih =>
    intro orbs ret h
    rcases List.eq_nil_or_concat orbs with rfl | ⟨ys, y, rfl⟩
    · simp at h
    · rw [List.concat_eq_append] at h ⊢
      have hys : m ≤ ys.length := by
        simpa using Nat.le_of_succ_le_succ (by simpa using h)
      have hlen : (ys ++ [y]).length = ys.length + 1 := by simp
      have hsub : (ys ++ [y]).length - (m + 1) = ys.length - m := by
        simp [hlen]
      have htake : (ys ++ [y]).take (ys.length - m) = ys.take (ys.length - m) :=
        List.take_append_of_le_length (Nat.sub_le _ _)
      have hdrop : (ys ++ [y]).drop (ys.length - m) = ys.drop (ys.length - m) ++ [y] :=
        drop_append_of_le_len ys [y] _ (Nat.sub_le _ _)
      show shrinkLoop (m + 1) (ys ++ [y]) ret = _
      rw [shrinkLoop, List.getLast?_concat, List.dropLast_concat]
      dsimp only
      rw [ih ys _ hys, hsub, htake, hdrop]
      by_cases hy : y.trailPositions.isEmpty <;>
        simp [hy, List.filter_append]

/-- On the shrinking path (`next < length`, scene initialized, population
live) `setOrbCount` keeps the first `next` orbs exactly as they were and
appends the retirement snapshots of the removed tail. -/
theorem setOrbCount_shrink (M : JsMath) (k : ℕ) (s : SimState) (count : ℚ)
    (hgl : s.glRef = true)
    (hlt : (max 1 (min 20 ⌊if count = 0 then 1 else count⌋)).toNat
      < s.orbStates.length) :
    (setOrbCount M k s count).1.orbStates
        = s.orbStates.take
            (max 1 (min 20 ⌊if count = 0 then 1 else count⌋)).toNat ∧
    (setOrbCount M k s count).1.retiredTrails
        = s.retiredTrails ++
          ((s.orbStates.drop
              (max 1 (min 20 ⌊if count = 0 then 1 else count⌋)).toNat).reverse.filter
            (fun o => !o.trailPositions.isEmpty)).map mkRetiredTrail := by
  have hne : s.orbStates.isEmpty = false := by
    rcases h : s.orbStates with _ | _
    · rw [h] at hlt; simp at hlt
    · simp
  have hng : ¬((max 1 (min 20 ⌊if count = 0 then 1 else count⌋)).toNat
      > s.orbStates.length) := by omega
  have hsl := shrinkLoop_eq
    (s.orbStates.length - (max 1 (min 20 ⌊if count = 0 then 1 else count⌋)).toNat)
    s.orbStates s.retiredTrails (Nat.sub_le _ _)
  have hcomp : s.orbStates.length -
      (s.orbStates.length -
        (max 1 (min 20 ⌊if count = 0 then 1 else count⌋)).toNat)
      = (max 1 (min 20 ⌊if count = 0 then 1 else count⌋)).toNat :=
    Nat.sub_sub_self (le_of_lt hlt)
  rw [hcomp] at hsl
  unfold setOrbCount
  rw [hgl, hne]
  simp only [Bool.not_true, Bool.false_eq_true, if_false, if_neg hng, if_pos hlt, hsl]
  exact ⟨trivial, trivial⟩

/-- C1 (amended): a chaser whose `targetId` no longer matches any live
entity keeps that stale id — `steerChaser` is a no-op for it — and
shrinking the population leaves every surviving entity (chaser flags and
`targetId` included) bit-for-bit unchanged; stale targets are not cleared. -/
theorem shrink_keeps_stale_chaser_target :
    (∀ (M : JsMath) (orbs : List Orb) (orb : Orb),
      orbs.find? (fun o => orb.targetId = some o.id) = none →
      steerChaser M orbs orb = orb) ∧
    (∀ (M : JsMath) (k : ℕ) (s : SimState) (count : ℚ),
      s.glRef = true →
      (max 1 (min 20 ⌊if count = 0 then 1 else count⌋)).toNat
        < s.orbStates.length →
      (setOrbCount M k s count).1.orbStates
        = s.orbStates.take
            (max 1 (min 20 ⌊if count = 0 then 1 else count⌋)).toNat) := by
  constructor
  · intro M orbs orb h
    unfold steerChaser
    rw [h]
  · intro M k s count hgl hlt
    exact (setOrbCount_shrink M k s count hgl hlt).1

/-- Counterexample for C1 as stated: a two-entity population where entity 1
chases entity 2; after `setOrbCount(1)` removes entity 2, the surviving
chaser still carries `targetId = 2` even though no live entity has id 2 —
the reference is neither live nor cleared. -/
theorem stale_chaser_target_cex :
    (setOrbCount testMath 0
        ⟨[{mkTestOrb 1 with isChaser := true, targetId := some 2}, mkTestOrb 2],
          2, [], 3, true⟩ 1).1.orbStates.map
        (fun o => (o.id, o.isChaser, o.targetId)) = [(1, true, some 2)] ∧
    ¬ (2 ∈ (setOrbCount testMath 0
        ⟨[{mkTestOrb 1 with isChaser := true, targetId := some 2}, mkTestOrb 2],
          2, [], 3, true⟩ 1).1.orbStates.map Orb.id) := by
  constructor
  · with_unfolding_all decide
  · with_unfolding_all decide

/-- Witness for `shrink_keeps_stale_chaser_target`: steering is a no-op on
a concrete chaser with a dead target id, and a concrete shrink keeps the
survivor untouched. -/
theorem shrink_keeps_stale_chaser_target_witness :
    steerChaser testMath [mkTestOrb 1]
        {mkTestOrb 1 with isChaser := true, targetId := some 9}
      = {mkTestOrb 1 with isChaser := true, targetId := some 9} ∧
    (setOrbCount testMath 0
        ⟨[{mkTestOrb 1 with isChaser := true, targetId := some 2}, mkTestOrb 2],
          2, [], 3, true⟩ 1).1.orbStates
      = [{mkTestOrb 1 with isChaser := true, targetId := some 2},
         mkTestOrb 2].take 1 :=
  ⟨shrink_keeps_stale_chaser_target.1 testMath [mkTestOrb 1]
      {mkTestOrb 1 with isChaser := true, targetId := some 9}
      (by with_unfolding_all rfl),
   shrink_keeps_stale_chaser_target.2 testMath 0
      ⟨[{mkTestOrb 1 with isChaser := true, targetId := some 2}, mkTestOrb 2],
        2, [], 3, true⟩ 1 rfl (by with_unfolding_all decide)⟩

/-- Concrete four-entity state used for the shrink scenarios: entity 1
chases entity 4, entity 4 carries a nonempty trail. -/
def testShrinkState : SimState :=
  ⟨[{mkTestOrb 1 with isChaser := true, targetId := some 4}, mkTestOrb 2,
    mkTestOrb 3, {mkTestOrb 4 with trailPositions := [⟨0, 0, 0⟩]}], 4, [], 5, true⟩

/-- C2 (amended): shrinking pops entities from the end and converts each
removed entity that has a nonempty trail into a RetiredTrail whose
`trailPositions` are the entity's trail, with `alphaScale = 1` and
`fade = 1.2` seconds; the surviving entities are left exactly as they
were — chaser assignment is not re-run on shrink (it runs only when the
population grows). -/
theorem setOrbCount_shrink_spec (M : JsMath) (k : ℕ) (s : SimState) (count : ℚ)
    (hgl : s.glRef = true)
    (hlt : (max 1 (min 20 ⌊if count = 0 then 1 else count⌋)).toNat
      < s.orbStates.length) :
    (setOrbCount M k s count).1.orbStates
        = s.orbStates.take
            (max 1 (min 20 ⌊if count = 0 then 1 else count⌋)).toNat ∧
    (setOrbCount M k s count).1.retiredTrails
        = s.retiredTrails ++
          ((s.orbStates.drop
              (max 1 (min 20 ⌊if count = 0 then 1 else count⌋)).toNat).reverse.filter
            (fun o => !o.trailPositions.isEmpty)).map mkRetiredTrail ∧
    (∀ o : Orb, (mkRetiredTrail o).trailPositions = o.trailPositions ∧
      (mkRetiredTrail o).alphaScale = 1 ∧ (mkRetiredTrail o).fade = 1.2 ∧
      (mkRetiredTrail o).size = o.size) :=
  ⟨(setOrbCount_shrink M k s count hgl hlt).1,
   (setOrbCount_shrink M k s count hgl hlt).2,
   fun _ => ⟨rfl, rfl, rfl, rfl⟩⟩

/-- Counterexample for C2 as stated: shrinking the four-entity state to 2
retires entity 4's trail correctly, but the surviving entities are
bit-for-bit unchanged — entity 1 is still a chaser targeting the removed
id 4 and entity 2 has no chaser flag, whereas a re-run of chaser
assignment would first clear every flag and then give any chaser a live
target. -/
theorem setOrbCount_shrink_no_reassign_cex :
    (setOrbCount testMath 0 testShrinkState 2).1.orbStates.map
        (fun o => (o.id, o.isChaser, o.targetId))
      = [(1, true, some 4), (2, false, none)] ∧
    (setOrbCount testMath 0 testShrinkState 2).1.retiredTrails.map
        (fun r => (r.alphaScale, r.fade)) = [(1, 1.2)] := by
  constructor
  · with_unfolding_all decide
  · with_unfolding_all decide

/-- Witness for `setOrbCount_shrink_spec`: the concrete 4-to-2 shrink. -/
theorem setOrbCount_shrink_spec_witness :
    (setOrbCount testMath 0 testShrinkState 2).1.orbStates
        = testShrinkState.orbStates.take
            (max 1 (min 20 ⌊if (2 : ℚ) = 0 then 1 else (2 : ℚ)⌋)).toNat ∧
    (setOrbCount testMath 0 testShrinkState 2).1.retiredTrails
        = testShrinkState.retiredTrails ++
          ((testShrinkState.orbStates.drop
              (max 1 (min 20 ⌊if (2 : ℚ) = 0 then 1 else (2 : ℚ)⌋)).toNat).reverse.filter
            (fun o => !o.trailPositions.isEmpty)).map mkRetiredTrail :=
  ⟨(setOrbCount_shrink_spec testMath 0 testShrinkState 2 rfl
      (by with_unfolding_all decide)).1,
   (setOrbCount_shrink_spec testMath 0 testShrinkState 2 rfl
      (by with_unfolding_all decide)).2.1⟩

theorem lerpVec3_zero (a b : Vec3) : lerpVec3 a b 0 = a := by
  cases a; cases b
  simp [lerpVec3]

theorem lerpVec3_one (a b : Vec3) : lerpVec3 a b 1 = b := by
  cases a; cases b
  simp only [lerpVec3, Vec3.mk.injEq]
  refine ⟨by ring, by ring, by ring⟩

theorem quadrance_lerp_diff (a b : Vec3) (t u : ℚ) :
    quadrance (subV (lerpVec3 a b t) (lerpVec3 a b u))
      = quadrance (subV b a) * (t - u) ^ 2 := by
  cases a; cases b
  simp only [lerpVec3, subV, quadrance]
  ring

/-- C5: the trail appender records a direct jump (one point, flag cleared)
exactly when `skipTrailInterpolation` is set or the measured distance
exceeds the teleport-break threshold; otherwise it subdivides the segment
so that, whenever the measured distance is the true Euclidean distance,
every pair of consecutive appended points (starting from the previous
trail point) is at squared distance at most `maxGap² = 0.045²`, ending
exactly at the new position; and `performTeleport` sets the skip flag so
the two points bracketing a teleport are not interpolated. -/
theorem trail_append_spec :
    (∀ (trail : List Vec3) (last p : Vec3) (skip : Bool) (d : ℚ),
      (skip = true ∨ d > TELEPORT_BREAK_DIST) →
      appendTrailPoints skip trail last p d = (trail ++ [p], false)) ∧
    (∀ (trail : List Vec3) (last p : Vec3) (d : ℚ),
      ¬ d > TELEPORT_BREAK_DIST → 0 ≤ d →
      d ^ 2 = quadrance (subV p last) →
      ((appendTrailPoints false trail last p d).1.drop trail.length ≠ [] ∧
       ((appendTrailPoints false trail last p d).1.drop trail.length).getLast?
          = some p ∧
       List.Chain' (fun q1 q2 => quadrance (subV q2 q1) ≤ (0.045 : ℚ) ^ 2)
         (last :: (appendTrailPoints false trail last p d).1.drop trail.length))) ∧
    (∀ (M : JsMath) (k : ℕ) (o : Orb),
      (performTeleport M k o).1.skipTrailInterpolation = true) := by
  refine ⟨?_, ?_, ?_⟩
  · intro trail last p skip d h
    unfold appendTrailPoints
    rcases h with rfl | h
    · simp
    · simp [decide_eq_true h]
  · intro trail last p d hle hd0 hdq
    have hcond : (false || decide (d > TELEPORT_BREAK_DIST)) = false := by
      simp [hle]
    simp only [appendTrailPoints, hcond, Bool.false_eq_true, if_false,
      List.drop_left]
    set S : ℤ := max 1 ⌈d / 0.045⌉ with hSdef
    have hS1 : (1 : ℤ) ≤ S := le_max_left _ _
    have hn1 : 1 ≤ S.toNat := by omega
    have hScast : ((S.toNat : ℚ)) = (S : ℚ) := by
      have := Int.toNat_of_nonneg (by omega : (0 : ℤ) ≤ S)
      exact_mod_cast congrArg (fun z : ℤ => (z : ℚ)) this
    have hSpos : (0 : ℚ) < (S : ℚ) := by exact_mod_cast lt_of_lt_of_le one_pos hS1
    have hdS : d ≤ 0.045 * (S : ℚ) := by
      have h1 : d / 0.045 ≤ ((⌈d / 0.045⌉ : ℤ) : ℚ) := Int.le_ceil _
      have h2 : ((⌈d / 0.045⌉ : ℤ) : ℚ) ≤ (S : ℚ) := by
        exact_mod_cast le_max_right 1 ⌈d / 0.045⌉
      have := h1.trans h2
      rw [div_le_iff₀ (by norm_num : (0 : ℚ) < 0.045)] at this
      linarith
    obtain ⟨m, hm⟩ : ∃ m, S.toNat = m + 1 := ⟨S.toNat - 1, by omega⟩
    refine ⟨by simp [hm], ?_, ?_⟩
    · rw [hm, List.range_succ, List.map_append, List.map_singleton, List.getLast?_concat]
      have ht : ((m : ℚ) + 1) / (S : ℚ) = 1 := by
        have : ((m : ℚ) + 1) = (S : ℚ) := by
          rw [← hScast, hm]; push_cast; ring
        rw [this, div_self (ne_of_gt hSpos)]
      simp [ht, lerpVec3_one]
    · have hlist : (last :: (List.range S.toNat).map
          (fun i : ℕ => lerpVec3 last p (((i : ℚ) + 1) / (S : ℚ))))
          = (List.range (S.toNat + 1)).map
              (fun i : ℕ => lerpVec3 last p ((i : ℚ) / (S : ℚ))) := by
        rw [List.range_succ_eq_map, List.map_cons, List.map_map]
        congr 1
        · rw [Nat.cast_zero, zero_div, lerpVec3_zero]
        · apply List.map_congr_left
          intro i _
          simp only [Function.comp]
          congr 1
          push_cast
          ring
      rw [hlist, List.chain'_map, List.chain'_range_succ]
      intro i hi
      rw [quadrance_lerp_diff]
      have hdiff : ((i + 1 : ℕ) : ℚ) / (S : ℚ) - ((i : ℕ) : ℚ) / (S : ℚ)
          = 1 / (S : ℚ) := by
        rw [div_sub_div_same]
        norm_num
      rw [hdiff, ← hdq]
      have hsq : d ^ 2 ≤ (0.045 * (S : ℚ)) ^ 2 := by

        exact pow_le_pow_left₀ hd0 hdS 2
      calc d ^ 2 * (1 / (S : ℚ)) ^ 2
          ≤ (0.045 * (S : ℚ)) ^ 2 * (1 / (S : ℚ)) ^ 2 := by
            exact mul_le_mul_of_nonneg_right hsq (by positivity)
        _ = (0.045 : ℚ) ^ 2 := by
            field_simp
            ring
  · intro M k o
    rfl

/-- Witness for `trail_append_spec`: a concrete direct jump with the skip
flag set, and a concrete ordinary segment of length 0.1 whose appended
points are spaced within the max gap. -/
theorem trail_append_spec_witness :
    appendTrailPoints true [] ⟨0, 0, 0⟩ ⟨1, 1, 1⟩ 0 = ([⟨1, 1, 1⟩], false) ∧
    List.Chain' (fun q1 q2 => quadrance (subV q2 q1) ≤ (0.045 : ℚ) ^ 2)
      (⟨0, 0, 0⟩ ::
        (appendTrailPoints false [] ⟨0, 0, 0⟩ ⟨0.1, 0, 0⟩ 0.1).1.drop 0) :=
  ⟨trail_append_spec.1 [] ⟨0, 0, 0⟩ ⟨1, 1, 1⟩ true 0 (Or.inl rfl),
   (trail_append_spec.2.1 [] ⟨0, 0, 0⟩ ⟨0.1, 0, 0⟩ 0.1
      (by with_unfolding_all decide) (by with_unfolding_all decide)
      (by with_unfolding_all decide)).2.2⟩

theorem clampOrbit_bounds (v mn mx : ℚ) (h : mn ≤ mx) :
    mn ≤ clampOrbit v mn mx ∧ clampOrbit v mn mx ≤ mx :=
  ⟨le_min (le_max_right v mn) h, min_le_right _ _⟩

theorem updateSingleOrb_renderRadius_clamped (M : JsMath) (k : ℕ) (o : Orb)
    (dt : ℚ) : ∃ w, (updateSingleOrb M k o dt).1.renderRadius
      = clampOrbit w ORBIT_MIN_RADIUS ORBIT_MAX_RADIUS :=
  ⟨_, rfl⟩

theorem updateSingleOrb_renderHeight_clamped (M : JsMath) (k : ℕ) (o : Orb)
    (dt : ℚ) : ∃ w, (updateSingleOrb M k o dt).1.renderHeight
      = clampOrbit w ORBIT_MIN_HEIGHT ORBIT_MAX_HEIGHT :=
  ⟨_, rfl⟩

theorem quadrance_normalize (M : JsMath) (v : Vec3)
    (hL : 0 < M.hypot3 v.x v.y v.z)
    (hq : (M.hypot3 v.x v.y v.z) ^ 2 = quadrance v) :
    quadrance (normalizeVec3 M v) = 1 := by
  unfold normalizeVec3
  dsimp only
  rw [if_neg (ne_of_gt hL)]
  unfold quadrance at hq ⊢
  dsimp only
  field_simp
  linarith [hq]

theorem map_set_same {α β : Type} (f : α → β) :
    ∀ (l : List α) (i : ℕ) (a : α),
      (∀ b, l[i]? = some b → f a = f b) → (l.set i a).map f = l.map f := by
  intro l
  induction l with
  | nil => intro i a _; simp
  | cons x xs ih =>
    intro i a h
    cases i with
    | zero =>
      simp only [List.set, List.map_cons, List.cons.injEq]
      exact ⟨h x (by simp), trivial⟩
    | succ n =>
      simp only [List.set, List.map_cons, List.cons.injEq]
      exact ⟨trivial, ih n a (fun b hb => h b (by simpa using hb))⟩

theorem collidePair_renderHeight (M : JsMath) (orbs : List Orb) (i j : ℕ) :
    (collidePair M orbs i j).map Orb.renderHeight
      = orbs.map Orb.renderHeight := by
  unfold collidePair
  rcases h1 : orbs[i]? with _ | oi
  · rfl
  rcases h2 : orbs[j]? with _ | oj
  · rfl
  dsimp only
  split_ifs with hc
  · refine (map_set_same _ _ _ _ ?_).trans (map_set_same _ _ _ _ ?_)
    · intro b hb
      rcases eq_or_ne i j with rfl | hij
      · rw [List.getElem?_set_eq_of_lt _ (List.getElem?_eq_some.mp h1).1] at hb
        cases hb
        have hoij : oi = oj := Option.some.inj (h1.symm.trans h2)
        rw [hoij]
      · rw [List.getElem?_set_ne hij, h2] at hb
        cases hb
        rfl
    · intro b hb
      rw [h1] at hb
      cases hb
      rfl
  · rfl

theorem collideInner_renderHeight (M : JsMath) :
    ∀ (n i j : ℕ) (orbs : List Orb),
      (collideInner M n i j orbs).map Orb.renderHeight
        = orbs.map Orb.renderHeight := by
  intro n
  induction n with
  | zero => intro i j orbs; rfl
  | succ n ih =>
    intro i j orbs
    rw [collideInner, ih, collidePair_renderHeight]

theorem collideOuter_renderHeight (M : JsMath) :
    ∀ (n i : ℕ) (orbs : List Orb),
      (collideOuter M n i orbs).map Orb.renderHeight
        = orbs.map Orb.renderHeight := by
  intro n
  induction n with
  | zero => intro i orbs; rfl
  | succ n ih =>
    intro i orbs
    rw [collideOuter, ih, collideInner_renderHeight]

theorem pickNewFlightSegment_keeps (M : JsMath) (k : ℕ) (o : Orb) (ff : Bool) :
    (pickNewFlightSegment M k o ff).1.planeNormal = o.planeNormal ∧
    (pickNewFlightSegment M k o ff).1.angle = o.angle ∧
    (pickNewFlightSegment M k o ff).1.radius = o.radius ∧
    (pickNewFlightSegment M k o ff).1.height = o.height ∧
    (pickNewFlightSegment M k o ff).1.isPaused = o.isPaused ∧
    (pickNewFlightSegment M k o ff).1.teleportDone = false := by
  unfold pickNewFlightSegment
  dsimp only
  split_ifs <;> exact ⟨rfl, rfl, rfl, rfl, rfl, rfl⟩

theorem postStep_planeNormal (M : JsMath) (o : Orb) :
    (postStep M o).planeNormal = o.planeNormal := rfl

theorem postStep_keeps (M : JsMath) (o : Orb) :
    (postStep M o).angle = o.angle ∧ (postStep M o).radius = o.radius ∧
    (postStep M o).height = o.height ∧ (postStep M o).isPaused = o.isPaused ∧
    (postStep M o).teleportDone = o.teleportDone ∧
    (postStep M o).teleportPlanned = o.teleportPlanned ∧
    (postStep M o).pauseTimer = o.pauseTimer ∧
    (postStep M o).pauseDuration = o.pauseDuration :=
  ⟨rfl, rfl, rfl, rfl, rfl, rfl, rfl, rfl⟩

theorem preStep_teleportPlanned (M : JsMath) (o : Orb) (dt : ℚ) :
    (preStep M o dt).teleportPlanned = o.teleportPlanned := rfl

theorem preStep_planeNormal (M : JsMath) (o : Orb) (dt : ℚ) :
    (preStep M o dt).planeNormal
      = normalizeVec3 M (lerpVec3 o.planeNormal o.targetPlaneNormal
          (min 1 (dt * 1.8))) := rfl

theorem cruiseStep_planeNormal (M : JsMath) (k : ℕ) (o : Orb) (dt : ℚ) :
    (cruiseStep M k o dt).1.planeNormal = o.planeNormal := by
  unfold cruiseStep
  dsimp only
  split_ifs
  · rfl
  · exact ((pickNewFlightSegment_keeps M (k + 1) _ false).1).trans rfl
  · rfl

theorem pausedStep_planeNormal (M : JsMath) (k : ℕ) (o : Orb) (dt : ℚ)
    (hpl : o.teleportPlanned = false) :
    (pausedStep M k o dt).1.planeNormal = o.planeNormal := by
  unfold pausedStep
  dsimp only
  rw [hpl]
  simp only [Bool.false_and, Bool.false_eq_true, if_false]
  split_ifs
  · exact ((pickNewFlightSegment_keeps M k _ false).1).trans rfl
  · rfl

/-- The orbital-plane easing target of one tick, as computed at the top of
`updateSingleOrb`. -/
def easedPlane (o : Orb) (dt : ℚ) : Vec3 :=
  lerpVec3 o.planeNormal o.targetPlaneNormal (min 1 (dt * 1.8))

theorem updateSingleOrb_planeNormal (M : JsMath) (k : ℕ) (o : Orb) (dt : ℚ)
    (hpl : o.teleportPlanned = false) :
    (updateSingleOrb M k o dt).1.planeNormal
      = normalizeVec3 M (easedPlane o dt) := by
  unfold updateSingleOrb
  dsimp only
  rw [postStep_planeNormal]
  cases hb : (preStep M o dt).isPaused with
  | false =>
    simp only [Bool.false_eq_true, if_false]
    rw [cruiseStep_planeNormal]
    rfl
  | true =>
    simp only [if_true]
    rw [pausedStep_planeNormal M k _ dt (by rw [preStep_teleportPlanned, hpl])]
    rfl

/-- The length oracle is exact on `v`: positive, and squaring to the true
squared length — the rational stand-in for the floating accuracy of
`Math.hypot` on the vectors the code renormalizes. -/
@[reducible] def hypotExact (M : JsMath) (v : Vec3) : Prop :=
  0 < M.hypot3 v.x v.y v.z ∧ (M.hypot3 v.x v.y v.z) ^ 2 = quadrance v

theorem pausedStep_planeNormal_cases (M : JsMath) (k : ℕ) (o : Orb)
    (dt : ℚ) :
    (pausedStep M k o dt).1.planeNormal = o.planeNormal ∨
    (pausedStep M k o dt).1.planeNormal
      = normalizeVec3 M ((randomUnitVec3 M k).1) := by
  unfold pausedStep
  dsimp only
  split_ifs
  · exact Or.inr (((pickNewFlightSegment_keeps M _ _ false).1).trans rfl)
  · exact Or.inr rfl
  · exact Or.inl (((pickNewFlightSegment_keeps M _ _ false).1).trans rfl)
  · exact Or.inl rfl

theorem updateSingleOrb_planeNormal_cases (M : JsMath) (k : ℕ) (o : Orb)
    (dt : ℚ) :
    (updateSingleOrb M k o dt).1.planeNormal
        = normalizeVec3 M (easedPlane o dt) ∨
    (updateSingleOrb M k o dt).1.planeNormal
        = normalizeVec3 M ((randomUnitVec3 M k).1) := by
  unfold updateSingleOrb
  dsimp only
  rw [postStep_planeNormal]
  cases hb : (preStep M o dt).isPaused with
  | false =>
    simp only [Bool.false_eq_true, if_false]
    rw [cruiseStep_planeNormal]
    exact Or.inl rfl
  | true =>
    simp only [if_true]
    rcases pausedStep_planeNormal_cases M k (preStep M o dt) dt with h | h
    · rw [h]; exact Or.inl rfl
    · rw [h]; exact Or.inr rfl

/-- C4 (amended): after the per-entity update, `renderRadius` lies in
`[ORBIT_MIN_RADIUS, ORBIT_MAX_RADIUS]` and `renderHeight` in
`[ORBIT_MIN_HEIGHT, ORBIT_MAX_HEIGHT]`, and the post-tick `planeNormal`
has unit squared length whenever the hypot oracle is exact on the vectors
the tick renormalizes — the eased plane vector on ordinary ticks, and the
fresh random plane vector on teleport ticks (`performTeleport` also
renormalizes); collision resolution never touches `renderHeight`, but it
adds to `renderRadius` without re-clamping, so the radius bound can be
exceeded after a full tick (see the counterexample). -/
theorem orbit_bounds_spec :
    (∀ (M : JsMath) (k : ℕ) (o : Orb) (dt : ℚ),
      ORBIT_MIN_RADIUS ≤ (updateSingleOrb M k o dt).1.renderRadius ∧
      (updateSingleOrb M k o dt).1.renderRadius ≤ ORBIT_MAX_RADIUS ∧
      ORBIT_MIN_HEIGHT ≤ (updateSingleOrb M k o dt).1.renderHeight ∧
      (updateSingleOrb M k o dt).1.renderHeight ≤ ORBIT_MAX_HEIGHT) ∧
    (∀ (M : JsMath) (k : ℕ) (o : Orb) (dt : ℚ),
      hypotExact M (easedPlane o dt) →
      hypotExact M ((randomUnitVec3 M k).1) →
      quadrance ((updateSingleOrb M k o dt).1.planeNormal) = 1) ∧
    (∀ (M : JsMath) (orbs : List Orb),
      (resolveOrbCollisions M orbs).map Orb.renderHeight
        = orbs.map Orb.renderHeight) := by
  refine ⟨?_, ?_, ?_⟩
  · intro M k o dt
    obtain ⟨w, hw⟩ := updateSingleOrb_renderRadius_clamped M k o dt
    obtain ⟨u, hu⟩ := updateSingleOrb_renderHeight_clamped M k o dt
    rw [hw, hu]
    obtain ⟨a1, a2⟩ := clampOrbit_bounds w ORBIT_MIN_RADIUS ORBIT_MAX_RADIUS
      (by norm_num [ORBIT_MIN_RADIUS, ORBIT_MAX_RADIUS])
    obtain ⟨b1, b2⟩ := clampOrbit_bounds u ORBIT_MIN_HEIGHT ORBIT_MAX_HEIGHT
      (by norm_num [ORBIT_MIN_HEIGHT, ORBIT_MAX_HEIGHT])
    exact ⟨a1, a2, b1, b2⟩
  · intro M k o dt he hr
    rcases updateSingleOrb_planeNormal_cases M k o dt with h | h <;> rw [h]
    · exact quadrance_normalize M _ he.1 he.2
    · exact quadrance_normalize M _ hr.1 hr.2
  · intro M orbs
    exact collideOuter_renderHeight M orbs.length 0 orbs

/-- Concrete two-entity state whose base radii sit far above the orbit
band, so both render radii clamp to the maximum before colliding. -/
def testC4State : SimState :=
  ⟨[{mkTestOrb 1 with radius := 5}, {mkTestOrb 2 with radius := 5, height := 0.3}],
    2, [], 3, true⟩

set_option maxRecDepth 8000 in
/-- Counterexample for C4 as stated: after one full `updateOrbiters` tick
(entity updates, then collision resolution) both entities end with
`renderRadius = 2.052`, strictly above `ORBIT_MAX_RADIUS = 2.05` — the
collision response adds to `renderRadius` without re-clamping. -/
theorem render_radius_exceeds_max_cex :
    (updateOrbiters testMath 0 testC4State 0).1.orbStates.map Orb.renderRadius
      = [2.052, 2.052] ∧
    ORBIT_MAX_RADIUS < 2.052 := by
  constructor
  · with_unfolding_all decide
  · with_unfolding_all decide

/-- Witness for `orbit_bounds_spec`: concrete bounds and a concrete unit
plane normal after one update, with the oracle exact on both the eased
plane vector and the teleport's random plane vector. -/
theorem orbit_bounds_spec_witness :
    ORBIT_MIN_RADIUS ≤ (updateSingleOrb testMath 0 (mkTestOrb 1) 0).1.renderRadius ∧
    quadrance ((updateSingleOrb testMath 0 (mkTestOrb 1) 0).1.planeNormal) = 1 :=
  ⟨(orbit_bounds_spec.1 testMath 0 (mkTestOrb 1) 0).1,
   orbit_bounds_spec.2.1 testMath 0 (mkTestOrb 1) 0
     (by with_unfolding_all decide) (by with_unfolding_all decide)⟩

/-- The teleport trigger as evaluated by the paused branch of
`updateSingleOrb` on the pre-tick state: paused, planned, not yet done,
and remaining pause time after this tick's decrement at or below 40% of
the pause duration. -/
def teleportFires (o : Orb) (dt : ℚ) : Bool :=
  o.isPaused && (o.teleportPlanned && !o.teleportDone &&
    decide (o.pauseTimer - dt ≤ o.pauseDuration * 0.4))

theorem preStep_keeps (M : JsMath) (o : Orb) (dt : ℚ) :
    (preStep M o dt).isPaused = o.isPaused ∧
    (preStep M o dt).teleportDone = o.teleportDone ∧
    (preStep M o dt).pauseTimer = o.pauseTimer ∧
    (preStep M o dt).pauseDuration = o.pauseDuration ∧
    (preStep M o dt).angle = o.angle :=
  ⟨rfl, rfl, rfl, rfl, rfl⟩

theorem pausedStep_fire (M : JsMath) (k : ℕ) (o : Orb) (dt : ℚ)
    (hc : (o.teleportPlanned && !o.teleportDone &&
      decide (o.pauseTimer - dt ≤ o.pauseDuration * 0.4)) = true) :
    (pausedStep M k o dt).1.planeNormal = (performTeleport M k o).1.planeNormal ∧
    (pausedStep M k o dt).1.angle = (performTeleport M k o).1.angle ∧
    (pausedStep M k o dt).1.radius = (performTeleport M k o).1.radius ∧
    (pausedStep M k o dt).1.height = (performTeleport M k o).1.height ∧
    (¬(o.pauseTimer - dt ≤ 0) →
      (pausedStep M k o dt).1.teleportDone = true ∧
      (pausedStep M k o dt).1.isPaused = o.isPaused) := by
  unfold pausedStep
  dsimp only
  rw [hc]
  simp only [if_true]
  split_ifs with hexit
  · exact ⟨((pickNewFlightSegment_keeps M _ _ false).1).trans rfl,
      ((pickNewFlightSegment_keeps M _ _ false).2.1).trans rfl,
      ((pickNewFlightSegment_keeps M _ _ false).2.2.1).trans rfl,
      ((pickNewFlightSegment_keeps M _ _ false).2.2.2.1).trans rfl,
      fun h => absurd (of_decide_eq_true hexit) h⟩
  · exact ⟨rfl, rfl, rfl, rfl, fun _ => ⟨rfl, rfl⟩⟩

theorem pausedStep_nofire (M : JsMath) (k : ℕ) (o : Orb) (dt : ℚ)
    (hc : (o.teleportPlanned && !o.teleportDone &&
      decide (o.pauseTimer - dt ≤ o.pauseDuration * 0.4)) = false) :
    (pausedStep M k o dt).1.planeNormal = o.planeNormal ∧
    (pausedStep M k o dt).1.angle = o.angle ∧
    (¬(o.pauseTimer - dt ≤ 0) →
      (pausedStep M k o dt).1.teleportDone = o.teleportDone ∧
      (pausedStep M k o dt).1.isPaused = o.isPaused) := by
  unfold pausedStep
  dsimp only
  rw [hc]
  simp only [Bool.false_eq_true, if_false]
  split_ifs with hexit
  · exact ⟨((pickNewFlightSegment_keeps M _ _ false).1).trans rfl,
      ((pickNewFlightSegment_keeps M _ _ false).2.1).trans rfl,
      fun h => absurd (of_decide_eq_true hexit) h⟩
  · exact ⟨rfl, rfl, fun _ => ⟨rfl, rfl⟩⟩

/-- C6: a planned teleport executes exactly once per pause.  During a
paused tick the teleport executes precisely when the trigger
`teleportFires` holds (remaining pause time after the decrement at or
below 40% of the pause duration, planned, not yet done): the post-tick
plane normal, angle, radius and height are those chosen by
`performTeleport`.  While the pause continues, `teleportDone` latches to
true exactly on the firing tick, so the trigger can never hold again
within the same pause.  From the Cruising state (and on paused non-firing
ticks) the plane normal follows the ordinary easing path and, when paused,
the angle is untouched — no teleport occurs. -/
theorem teleport_once_per_pause :
    (∀ (M : JsMath) (k : ℕ) (o : Orb) (dt : ℚ),
      o.isPaused = true → teleportFires o dt = true →
      (updateSingleOrb M k o dt).1.planeNormal
          = (performTeleport M k o).1.planeNormal ∧
      (updateSingleOrb M k o dt).1.angle = (performTeleport M k o).1.angle ∧
      (updateSingleOrb M k o dt).1.radius = (performTeleport M k o).1.radius ∧
      (updateSingleOrb M k o dt).1.height = (performTeleport M k o).1.height) ∧
    (∀ (M : JsMath) (k : ℕ) (o : Orb) (dt : ℚ),
      o.isPaused = true → ¬(o.pauseTimer - dt ≤ 0) →
      (updateSingleOrb M k o dt).1.teleportDone
          = (o.teleportDone || teleportFires o dt) ∧
      (updateSingleOrb M k o dt).1.isPaused = true) ∧
    (∀ (M : JsMath) (k : ℕ) (o : Orb) (dt dt' : ℚ),
      o.isPaused = true → ¬(o.pauseTimer - dt ≤ 0) → teleportFires o dt = true →
      teleportFires (updateSingleOrb M k o dt).1 dt' = false) ∧
    (∀ (M : JsMath) (k : ℕ) (o : Orb) (dt : ℚ),
      o.isPaused = false →
      (updateSingleOrb M k o dt).1.planeNormal
          = normalizeVec3 M (easedPlane o dt)) ∧
    (∀ (M : JsMath) (k : ℕ) (o : Orb) (dt : ℚ),
      o.isPaused = true → teleportFires o dt = false →
      (updateSingleOrb M k o dt).1.angle = o.angle ∧
      (updateSingleOrb M k o dt).1.planeNormal
          = normalizeVec3 M (easedPlane o dt)) := by
  have part2 : ∀ (M : JsMath) (k : ℕ) (o : Orb) (dt : ℚ),
      o.isPaused = true → ¬(o.pauseTimer - dt ≤ 0) →
      (updateSingleOrb M k o dt).1.teleportDone
          = (o.teleportDone || teleportFires o dt) ∧
      (updateSingleOrb M k o dt).1.isPaused = true := by
    intro M k o dt hp hstill
    unfold updateSingleOrb
    dsimp only
    rw [(preStep_keeps M o dt).1, hp]
    simp only [if_true]
    cases hf : teleportFires o dt with
    | true =>
      have hc : ((preStep M o dt).teleportPlanned && !(preStep M o dt).teleportDone &&
          decide ((preStep M o dt).pauseTimer - dt
            ≤ (preStep M o dt).pauseDuration * 0.4)) = true := by
        have := hf
        rw [teleportFires, hp, Bool.true_and] at this
        exact this
      obtain ⟨hdone, hpz⟩ := (pausedStep_fire M k (preStep M o dt) dt hc).2.2.2.2
        (by exact hstill)
      constructor
      · rw [(postStep_keeps M _).2.2.2.2.1, hdone]
        simp
      · rw [(postStep_keeps M _).2.2.2.1, hpz]
        exact hp
    | false =>
      have hc : ((preStep M o dt).teleportPlanned && !(preStep M o dt).teleportDone &&
          decide ((preStep M o dt).pauseTimer - dt
            ≤ (preStep M o dt).pauseDuration * 0.4)) = false := by
        have := hf
        rw [teleportFires, hp, Bool.true_and] at this
        exact this
      obtain ⟨hdone, hpz⟩ := (pausedStep_nofire M k (preStep M o dt) dt hc).2.2
        (by exact hstill)
      constructor
      · rw [(postStep_keeps M _).2.2.2.2.1, hdone, Bool.or_false]
        rfl
      · rw [(postStep_keeps M _).2.2.2.1, hpz]
        exact hp
  refine ⟨?_, part2, ?_, ?_, ?_⟩
  · intro M k o dt hp hf
    have hc : ((preStep M o dt).teleportPlanned && !(preStep M o dt).teleportDone &&
        decide ((preStep M o dt).pauseTimer - dt
          ≤ (preStep M o dt).pauseDuration * 0.4)) = true := by
      have := hf
      rw [teleportFires, hp, Bool.true_and] at this
      exact this
    unfold updateSingleOrb
    dsimp only
    rw [(preStep_keeps M o dt).1, hp]
    simp only [if_true]
    have hfire := pausedStep_fire M k (preStep M o dt) dt hc
    exact ⟨(postStep_planeNormal M _).trans (hfire.1.trans rfl),
      ((postStep_keeps M _).1).trans (hfire.2.1.trans rfl),
      ((postStep_keeps M _).2.1).trans (hfire.2.2.1.trans rfl),
      ((postStep_keeps M _).2.2.1).trans (hfire.2.2.2.1.trans rfl)⟩
  · intro M k o dt dt' hp hstill hf
    obtain ⟨hdone, _⟩ := part2 M k o dt hp hstill
    rw [teleportFires, hdone, hf]
    simp
  · intro M k o dt hp
    unfold updateSingleOrb
    dsimp only
    rw [(preStep_keeps M o dt).1, hp]
    simp only [Bool.false_eq_true, if_false]
    rw [postStep_planeNormal, cruiseStep_planeNormal]
    rfl
  · intro M k o dt hp hf
    have hc : ((preStep M o dt).teleportPlanned && !(preStep M o dt).teleportDone &&
        decide ((preStep M o dt).pauseTimer - dt
          ≤ (preStep M o dt).pauseDuration * 0.4)) = false := by
      have := hf
      rw [teleportFires, hp, Bool.true_and] at this
      exact this
    unfold updateSingleOrb
    dsimp only
    rw [(preStep_keeps M o dt).1, hp]
    simp only [if_true]
    have hno := pausedStep_nofire M k (preStep M o dt) dt hc
    exact ⟨((postStep_keeps M _).1).trans (hno.2.1.trans rfl),
      (postStep_planeNormal M _).trans (hno.1.trans rfl)⟩

/-- Concrete paused orb with a planned teleport: pause of 0.6s with 0.5s
remaining, so a 0.3s tick drops the remaining time to 0.2 ≤ 0.24 = 40%. -/
def testPausedOrb : Orb :=
  {mkTestOrb 1 with
      isPaused := true, teleportPlanned := true, teleportDone := false,
      pauseTimer := 0.5, pauseDuration := 0.6}

/-- Witness for `teleport_once_per_pause`: the concrete paused orb fires
its teleport on a 0.3s tick (taking `performTeleport`'s plane normal) and
the trigger is dead for any following tick of the same pause. -/
theorem teleport_once_per_pause_witness :
    (updateSingleOrb testMath 0 testPausedOrb 0.3).1.planeNormal
      = (performTeleport testMath 0 testPausedOrb).1.planeNormal ∧
    teleportFires (updateSingleOrb testMath 0 testPausedOrb 0.3).1 0.1 = false :=
  ⟨(teleport_once_per_pause.1 testMath 0 testPausedOrb 0.3 rfl
      (by with_unfolding_all decide)).1,
   teleport_once_per_pause.2.2.1 testMath 0 testPausedOrb 0.3 0.1 rfl
      (by with_unfolding_all decide) (by with_unfolding_all decide)⟩
